import Mathlib

/-!
Shallow embedding of `src/cloudwatch.ts` (aws-cloudwatch-put-metrics).

The source exports three functions:
  * `validateNamespace(namespace: string): void` (throws on invalid input),
  * `parseMetricData(metricDataStr: string): MetricDatum[]` (throws on invalid input),
  * `putMetrics(client, namespace, metricDataStr): Promise<MetricResult>`.

Modelling decisions, each noted again at the definition it concerns:
  * Thrown errors become `Except String`: `throw new Error(msg)` is `Except.error msg`.
  * JSON numbers are modelled as rationals; the code never computes with them, it only
    copies them from input to output.
  * The outcome of `JSON.parse` on the metric-data string is an explicit inductive:
    the parse throws, yields a non-array value, or yields an array of records typed
    per the `MetricDataInput` interface (a missing key is `none`).
  * The CloudWatch client is a parameter `send : PutMetricDataCommand → Except String Unit`;
    `putMetrics` additionally returns the list of commands passed to `send` and the
    `core.info` / `core.error` log lines, making its two effects explicit.
  * JavaScript string semantics (`trim`, `.length` in UTF-16 code units, truthiness of
    strings and of optional fields) are embedded by dedicated helper functions.
-/

namespace AwsCloudwatchPutMetrics

/-- One CloudWatch dimension: a name/value string pair (field `Dimensions` of the
`MetricDataInput` interface, lines 20-23 of the source). -/
structure Dimension where
  Name : String
  Value : String
deriving DecidableEq, Repr

/-- A pre-aggregated statistic set (field `StatisticValues`, lines 26-31 of the source).
JSON numbers are modelled as rationals. -/
structure StatisticSet where
  SampleCount : Rat
  Sum : Rat
  Minimum : Rat
  Maximum : Rat
deriving DecidableEq, Repr

/-- A JavaScript `Date` as built by `new Date(isoString)` on line 105 of the source.
The code never inspects the resulting date, so it is modelled as the string it was
built from. -/
structure JSDate where
  iso : String
deriving DecidableEq, Repr

/-- The `MetricDataInput` interface (lines 15-32 of the source): one element of the
parsed metric-data JSON array. Every field is optional at runtime (`JSON.parse`
performs no checking); a missing key reads as `undefined`, modelled as `none`.
`Unit` is a string in the SDK (`StandardUnit` is a string enum). -/
structure MetricDataInput where
  MetricName : Option String := none
  Value : Option Rat := none
  Unit : Option String := none
  Timestamp : Option String := none
  Dimensions : Option (List Dimension) := none
  Values : Option (List Rat) := none
  Counts : Option (List Rat) := none
  StatisticValues : Option StatisticSet := none
deriving DecidableEq, Repr

/-- The SDK `MetricDatum` record as assembled by the loop in `parseMetricData`
(lines 89-127 of the source): `MetricName` is always set, every other field only
conditionally. -/
structure MetricDatum where
  MetricName : String
  Value : Option Rat := none
  Unit : Option String := none
  Timestamp : Option JSDate := none
  Dimensions : Option (List Dimension) := none
  Values : Option (List Rat) := none
  Counts : Option (List Rat) := none
  StatisticValues : Option StatisticSet := none
deriving DecidableEq, Repr

/-- The `MetricResult` interface (lines 9-13 of the source). -/
structure MetricResult where
  success : Bool
  metricsCount : Option Nat := none
  error : Option String := none
deriving DecidableEq, Repr

/-- Truthiness of an optional string, as used by `if (!data.MetricName)`,
`if (data.Unit)` and `if (data.Timestamp)`: `undefined` and the empty string are
falsy, every other string is truthy. -/
def truthyStr : Option String → Bool
  | none => false
  | some s => s != ""

/-- The code points removed by JavaScript `String.prototype.trim`: the ECMAScript
WhiteSpace set (TAB, VT, FF, SP, NBSP, ZWNBSP and the Unicode `Zs` category) together
with the LineTerminator set (LF, CR, LS, PS). -/
def isJsWhitespace (c : Char) : Bool :=
  c == '\t' || c == '\u000B' || c == '\u000C' || c == ' ' || c == '\u00A0' || c == '\uFEFF' ||
  c == '\n' || c == '\r' || c == '\u2028' || c == '\u2029' ||
  c == '\u1680' || ('\u2000' ≤ c && c ≤ '\u200A') || c == '\u202F' || c == '\u205F' || c == '\u3000'

/-- JavaScript `String.prototype.trim`: strip leading and trailing whitespace. -/
def jsTrim (s : String) : String :=
  String.mk (((s.data.dropWhile isJsWhitespace).reverse.dropWhile isJsWhitespace).reverse)

/-- Number of UTF-16 code units a code point occupies (astral code points use a
surrogate pair). -/
def utf16Units (c : Char) : Nat :=
  if c.toNat < 65536 then 1 else 2

/-- JavaScript `String.prototype.length`: the number of UTF-16 code units. -/
def jsLength (s : String) : Nat :=
  (s.data.map utf16Units).sum

/-- The character class of the namespace pattern `/^[a-zA-Z0-9_.\-\/]+$/`
(line 47 of the source). -/
def isValidNamespaceChar (c : Char) : Bool :=
  ('a' ≤ c && c ≤ 'z') || ('A' ≤ c && c ≤ 'Z') || ('0' ≤ c && c ≤ '9') ||
  c == '_' || c == '.' || c == '-' || c == '/'

/-- `validPattern.test(namespace)` for the anchored pattern `^[a-zA-Z0-9_.\-\/]+$`:
at least one character, all of them in the class. -/
def namespacePatternTest (s : String) : Bool :=
  !s.data.isEmpty && s.data.all isValidNamespaceChar

/-- `validateNamespace` (lines 37-54 of the source). The source parameter is named
`namespace`, a Lean keyword, so it is `ns` here. `!namespace` for a string is true
exactly on the empty string; `namespace.trim().length === 0` uses the JavaScript
length of the JavaScript trim. -/
def validateNamespace (ns : String) : Except String Unit :=
  if ns == "" || jsLength (jsTrim ns) == 0 then
    Except.error "Namespace cannot be empty"
  else if 255 < jsLength ns then
    Except.error ("Namespace exceeds maximum length of 255 characters (got " ++
      toString (jsLength ns) ++ ")")
  else if !namespacePatternTest ns then
    Except.error ("Namespace \"" ++ ns ++ "\" contains invalid characters. " ++
      "Only alphanumeric characters, hyphens, underscores, periods, and forward slashes are allowed.")
  else
    Except.ok ()

/-- Outcome of the `JSON.parse(metricDataStr)` call on line 63, as far as the code
inspects it: the parse throws with some message, or yields a value that is not an
array, or yields an array of records typed per the `MetricDataInput` interface. -/
inductive JsonParse where
  | failed (msg : String)
  | notArray
  | array (records : List MetricDataInput)
deriving DecidableEq, Repr

/-- Dimension count of a record: the length of `Dimensions` when present, else 0.
The source (lines 109-114) checks the length only when the field is present; an
absent field can never exceed the limit, so the two readings agree. -/
def dimCount (d : MetricDataInput) : Nat :=
  match d.Dimensions with
  | some ds => ds.length
  | none => 0

/-- The `MetricDatum` assembled by one loop iteration (lines 89-127 of the source):
`Value` is copied whenever it is not `undefined` (so 0 is kept); `Unit` and
`Timestamp` only when truthy (a present empty string is dropped), `Timestamp`
converted to a `Date`; `Dimensions`, `Values`, `Counts` and `StatisticValues` are
copied whenever present, because a present array or object is always truthy in
JavaScript (even an empty array). -/
def buildMetric (data : MetricDataInput) : MetricDatum :=
  { MetricName := data.MetricName.getD ""
    Value := data.Value
    Unit := match data.Unit with
      | some u => if u == "" then none else some u
      | none => none
    Timestamp := match data.Timestamp with
      | some t => if t == "" then none else some (JSDate.mk t)
      | none => none
    Dimensions := data.Dimensions
    Values := data.Values
    Counts := data.Counts
    StatisticValues := data.StatisticValues }

/-- One iteration of the validation loop of `parseMetricData` (lines 82-141) at
index `i`. The final data-point check of the source (lines 130-138) reads the fields
of the metric built so far: `metric.Value` equals `data.Value` exactly, and
`metric.Values` / `metric.StatisticValues` are set exactly when the input fields are
present (a present array or object is truthy), so the check is expressed on the input
fields. The dimension check precedes it, as in the source. -/
def parseRecord (i : Nat) (data : MetricDataInput) : Except String MetricDatum :=
  if !truthyStr data.MetricName then
    Except.error ("Metric at index " ++ toString i ++
      " is missing required field \x27MetricName\x27")
  else if 30 < dimCount data then
    Except.error ("Metric \"" ++ data.MetricName.getD "" ++
      "\" has too many dimensions (max 30, got " ++ toString (dimCount data) ++ ")")
  else if data.Value.isNone && data.Values.isNone && data.StatisticValues.isNone then
    Except.error ("Metric \"" ++ data.MetricName.getD "" ++
      "\" must have at least one of: Value, Values, or StatisticValues")
  else
    Except.ok (buildMetric data)

/-- The validation loop of `parseMetricData` (lines 80-141): process the records in
order, stopping at the first thrown error; `i` is the index of the first record of
the remaining list. -/
def parseMetrics : Nat → List MetricDataInput → Except String (List MetricDatum)
  | _, [] => Except.ok []
  | i, d :: rest =>
    match parseRecord i d with
    | Except.error e => Except.error e
    | Except.ok m =>
      match parseMetrics (i + 1) rest with
      | Except.error e => Except.error e
      | Except.ok ms => Except.ok (m :: ms)

/-- `parseMetricData` (lines 59-144 of the source): the JSON parse step, the
array / emptiness / size checks in source order, then the per-record loop. -/
def parseMetricData (input : JsonParse) : Except String (List MetricDatum) :=
  match input with
  | JsonParse.failed msg =>
    Except.error ("Failed to parse metric-data JSON: " ++ msg)
  | JsonParse.notArray =>
    Except.error "metric-data must be a JSON array"
  | JsonParse.array xs =>
    if xs.length == 0 then
      Except.error "metric-data array cannot be empty"
    else if 1000 < xs.length then
      Except.error ("metric-data array exceeds maximum size of 1000 metrics (got " ++
        toString xs.length ++ ")")
    else
      parseMetrics 0 xs

/-- The `PutMetricDataCommand` payload built on lines 166-169 of the source. -/
structure PutMetricDataCommand where
  Namespace : String
  MetricData : List MetricDatum
deriving DecidableEq, Repr

/-- One log line: `core.info` or `core.error`. -/
inductive LogLine where
  | info (msg : String)
  | error (msg : String)
deriving DecidableEq, Repr

/-- Everything `putMetrics` produces: its returned `MetricResult`, the commands it
passed to `client.send`, and the log lines it emitted, in order. -/
structure PutMetricsOutcome where
  result : MetricResult
  sent : List PutMetricDataCommand
  logs : List LogLine
deriving DecidableEq, Repr

/-- The per-metric visibility log line (lines 176-183 of the source). `Dimensions`
and `Unit` are rendered only when set (they are set only when truthy), and a metric
without a plain `Value` is rendered as `statistic-set`. Number rendering differs
from JavaScript only in formatting, which no property here depends on. -/
def logMetricLine (metric : MetricDatum) : String :=
  let dims := match metric.Dimensions with
    | some ds => " [" ++ String.intercalate ", " (ds.map (fun d => d.Name ++ "=" ++ d.Value)) ++ "]"
    | none => ""
  let value := match metric.Value with
    | some v => toString v
    | none => "statistic-set"
  let unitStr := match metric.Unit with
    | some u => " " ++ u
    | none => ""
  "  - " ++ metric.MetricName ++ dims ++ ": " ++ value ++ unitStr

/-- `putMetrics` (lines 149-197 of the source). The whole body is one `try` block:
any error thrown by `validateNamespace`, `parseMetricData` or `client.send` reaches
the `catch`, which logs `Failed to put metrics: <message>` via `core.error` and
returns `success: false` with the thrown message itself as `error`. On the success
path exactly one command is sent and `metricsCount` is the number of parsed records. -/
def putMetrics (send : PutMetricDataCommand → Except String Unit)
    (ns : String) (metricDataStr : JsonParse) : PutMetricsOutcome :=
  match validateNamespace ns with
  | Except.error msg =>
    { result := { success := false, error := some msg }
      sent := []
      logs := [LogLine.error ("Failed to put metrics: " ++ msg)] }
  | Except.ok _ =>
    match parseMetricData metricDataStr with
    | Except.error msg =>
      { result := { success := false, error := some msg }
        sent := []
        logs := [LogLine.info "Parsing metric data...",
                 LogLine.error ("Failed to put metrics: " ++ msg)] }
    | Except.ok metricData =>
      let command : PutMetricDataCommand := { Namespace := ns, MetricData := metricData }
      match send command with
      | Except.error msg =>
        { result := { success := false, error := some msg }
          sent := [command]
          logs := [LogLine.info "Parsing metric data...",
                   LogLine.info ("Publishing " ++ toString metricData.length ++
                     " metric(s) to namespace \"" ++ ns ++ "\""),
                   LogLine.error ("Failed to put metrics: " ++ msg)] }
      | Except.ok _ =>
        { result := { success := true, metricsCount := some metricData.length }
          sent := [command]
          logs := [LogLine.info "Parsing metric data...",
                   LogLine.info ("Publishing " ++ toString metricData.length ++
                     " metric(s) to namespace \"" ++ ns ++ "\""),
                   LogLine.info "✓ Metrics published successfully"] ++
                  metricData.map (fun m => LogLine.info (logMetricLine m)) }

/-- A record is accepted by the validation loop exactly when its `MetricName` is
truthy, its dimension count is at most 30, and at least one of `Value`, `Values`,
`StatisticValues` is present. -/
def validRecord (d : MetricDataInput) : Prop :=
  truthyStr d.MetricName = true ∧ dimCount d ≤ 30 ∧
    (d.Value.isSome = true ∨ d.Values.isSome = true ∨ d.StatisticValues.isSome = true)

instance instDecidableValidRecord (d : MetricDataInput) : Decidable (validRecord d) := by
  unfold validRecord
  exact inferInstance

/-- Claim-side relation, following the wording of claim C1: the output record carries
the same field content as the input record, field by field, `Timestamp` being compared
through the string the `Date` was built from. -/
def sameFieldContent (d : MetricDataInput) (m : MetricDatum) : Prop :=
  d.MetricName = some m.MetricName ∧
  m.Value = d.Value ∧
  m.Unit = d.Unit ∧
  m.Timestamp.map JSDate.iso = d.Timestamp ∧
  m.Dimensions = d.Dimensions ∧
  m.Values = d.Values ∧
  m.Counts = d.Counts ∧
  m.StatisticValues = d.StatisticValues

instance instDecidableSameFieldContent (d : MetricDataInput) (m : MetricDatum) :
    Decidable (sameFieldContent d m) := by
  unfold sameFieldContent
  exact inferInstance

/-- What the loop actually preserves: every field is carried over verbatim except
that `Unit` and `Timestamp` are dropped when they are the empty string, and
`Timestamp` is wrapped into a `Date` carrying the original string. -/
def preservedRecord (d : MetricDataInput) (m : MetricDatum) : Prop :=
  d.MetricName = some m.MetricName ∧
  m.Value = d.Value ∧
  m.Unit = (match d.Unit with
    | some u => if u = "" then none else some u
    | none => none) ∧
  m.Timestamp.map JSDate.iso = (match d.Timestamp with
    | some t => if t = "" then none else some t
    | none => none) ∧
  m.Dimensions = d.Dimensions ∧
  m.Values = d.Values ∧
  m.Counts = d.Counts ∧
  m.StatisticValues = d.StatisticValues

instance instDecidablePreservedRecord (d : MetricDataInput) (m : MetricDatum) :
    Decidable (preservedRecord d m) := by
  unfold preservedRecord
  exact inferInstance

/-- Concrete record: a minimal valid metric `X` with value 1. -/
def recSimpleX : MetricDataInput :=
  { MetricName := some "X", Value := some 1 }

/-- Concrete record: valid, but with a present empty-string `Unit`. -/
def recUnitEmpty : MetricDataInput :=
  { MetricName := some "M", Value := some 1, Unit := some "" }

/-- Concrete record: `MetricName` and a 30-entry `Dimensions` array, nothing else. -/
def rec30dims : MetricDataInput :=
  { MetricName := some "M", Dimensions := some (List.replicate 30 { Name := "d", Value := "v" }) }

/-- Concrete record: `MetricName` and a 31-entry `Dimensions` array, nothing else. -/
def rec31dims : MetricDataInput :=
  { MetricName := some "M", Dimensions := some (List.replicate 31 { Name := "d", Value := "v" }) }

/-- Concrete record: a value plus a 30-entry `Dimensions` array. -/
def rec30dimsValue : MetricDataInput :=
  { MetricName := some "M", Value := some 1,
    Dimensions := some (List.replicate 30 { Name := "d", Value := "v" }) }

/-- Concrete record: a value plus a 31-entry `Dimensions` array. -/
def rec31dimsValue : MetricDataInput :=
  { MetricName := some "M", Value := some 1,
    Dimensions := some (List.replicate 31 { Name := "d", Value := "v" }) }

/-- Concrete record: `Counts` present, `Values` absent, data carried by `Value`. -/
def recCountsNoValues : MetricDataInput :=
  { MetricName := some "M", Value := some 1, Counts := some [2] }

/-- Concrete record: `Values` and `Counts` of different lengths. -/
def recValuesCountsMismatch : MetricDataInput :=
  { MetricName := some "M", Values := some [1, 2], Counts := some [3, 4, 5] }

/-- Concrete record: the only data field is an empty `Values` array. -/
def recEmptyValues : MetricDataInput :=
  { MetricName := some "M", Values := some [] }

/-- Concrete record: the only data field is `Value` equal to 0. -/
def recZeroValue : MetricDataInput :=
  { MetricName := some "M", Value := some 0 }

/-- Concrete record with no data field at all. -/
def recNoData : MetricDataInput :=
  { MetricName := some "M" }

/-- A backend that accepts every command. -/
def sendOk : PutMetricDataCommand → Except String Unit :=
  fun _ => Except.ok ()

/-- A sample backend authorization error message. -/
def authErrorMsg : String :=
  "User: arn:aws:iam::123456789012:user/ci is not authorized to perform: cloudwatch:PutMetricData"

/-- A backend that rejects every command with an authorization error. -/
def sendAuthError : PutMetricDataCommand → Except String Unit :=
  fun _ => Except.error authErrorMsg

/-- A valid record is accepted by the loop body and yields exactly the built metric. -/
theorem parseRecord_ok_of_valid (i : Nat) (d : MetricDataInput) (h : validRecord d) :
    parseRecord i d = Except.ok (buildMetric d) := by
  obtain ⟨h1, h2, h3⟩ := h
  unfold parseRecord
  rw [if_neg (by simp [h1]), if_neg (Nat.not_lt.mpr h2), if_neg ?_]
  intro hc
  simp only [Bool.and_eq_true] at hc
  obtain ⟨⟨ha, hb⟩, hd⟩ := hc
  rcases h3 with hv | hv | hv
  · rw [Option.isNone_iff_eq_none] at ha
    rw [ha] at hv
    simp at hv
  · rw [Option.isNone_iff_eq_none] at hb
    rw [hb] at hv
    simp at hv
  · rw [Option.isNone_iff_eq_none] at hd
    rw [hd] at hv
    simp at hv

/-- Conversely, a record accepted by the loop body is valid, and the output is the
built metric. -/
theorem parseRecord_ok_elim (i : Nat) (d : MetricDataInput) (m : MetricDatum)
    (h : parseRecord i d = Except.ok m) : validRecord d ∧ m = buildMetric d := by
  unfold parseRecord at h
  split at h
  · cases h
  · split at h
    · cases h
    · split at h
      · cases h
      · rename_i hg1 hg2 hg3
        injection h with h
        refine ⟨⟨by simpa using hg1, Nat.not_lt.mp hg2, ?_⟩, h.symm⟩
        cases hV : d.Value with
        | some v => exact Or.inl (by simp [hV])
        | none =>
          cases hVs : d.Values with
          | some vs => exact Or.inr (Or.inl (by simp [hVs]))
          | none =>
            cases hSt : d.StatisticValues with
            | some st => exact Or.inr (Or.inr (by simp [hSt]))
            | none => exact absurd (by simp [hV, hVs, hSt]) hg3

/-- The loop succeeds exactly when every record is valid, and then returns the built
metrics in input order. -/
theorem parseMetrics_ok_iff (xs : List MetricDataInput) : ∀ (i : Nat) (ms : List MetricDatum),
    parseMetrics i xs = Except.ok ms ↔ ((∀ d ∈ xs, validRecord d) ∧ ms = xs.map buildMetric) := by
  induction xs with
  | nil =>
    intro i ms
    simp [parseMetrics]
  | cons d rest ih =>
    intro i ms
    constructor
    · intro h
      unfold parseMetrics at h
      cases hd : parseRecord i d with
      | error e => rw [hd] at h; cases h
      | ok m =>
        rw [hd] at h
        cases hrest : parseMetrics (i + 1) rest with
        | error e => rw [hrest] at h; cases h
        | ok ms2 =>
          rw [hrest] at h
          injection h with h
          obtain ⟨hvd, hm⟩ := parseRecord_ok_elim i d m hd
          obtain ⟨hvs, hms⟩ := (ih (i + 1) ms2).mp hrest
          subst hm
          subst hms
          subst h
          exact ⟨List.forall_mem_cons.mpr ⟨hvd, hvs⟩, rfl⟩
    · rintro ⟨hv, rfl⟩
      unfold parseMetrics
      rw [parseRecord_ok_of_valid i d (hv d (List.mem_cons_self d rest))]
      rw [(ih (i + 1) (rest.map buildMetric)).mpr
        ⟨fun x hx => hv x (List.mem_cons_of_mem d hx), rfl⟩]
      simp

/-- Characterization of a successful parse of an array input: nonempty, at most 1000
records, all of them valid, and the result is the built metrics in input order. -/
theorem parseMetricData_array_ok_iff (xs : List MetricDataInput) (ms : List MetricDatum) :
    parseMetricData (JsonParse.array xs) = Except.ok ms ↔
      (xs.length ≠ 0 ∧ xs.length ≤ 1000 ∧ (∀ d ∈ xs, validRecord d) ∧
        ms = xs.map buildMetric) := by
  simp only [parseMetricData]
  by_cases h0 : xs.length = 0
  · rw [if_pos (by simpa using h0)]
    constructor
    · intro h; cases h
    · rintro ⟨hne, _⟩; exact absurd h0 hne
  · rw [if_neg (by simpa using h0)]
    by_cases h1 : 1000 < xs.length
    · rw [if_pos h1]
      constructor
      · intro h; cases h
      · rintro ⟨_, hle, _⟩; omega
    · rw [if_neg h1]
      rw [parseMetrics_ok_iff]
      constructor
      · rintro ⟨hv, hm⟩; exact ⟨h0, by omega, hv, hm⟩
      · rintro ⟨_, _, hv, hm⟩; exact ⟨hv, hm⟩

/-- A successful parse can only come from an array input satisfying the
characterization above. -/
theorem parseMetricData_ok_elim (input : JsonParse) (ms : List MetricDatum)
    (h : parseMetricData input = Except.ok ms) :
    ∃ xs, input = JsonParse.array xs ∧ xs.length ≠ 0 ∧ xs.length ≤ 1000 ∧
      (∀ d ∈ xs, validRecord d) ∧ ms = xs.map buildMetric := by
  cases input with
  | failed msg => simp [parseMetricData] at h
  | notArray => simp [parseMetricData] at h
  | array xs => exact ⟨xs, rfl, (parseMetricData_array_ok_iff xs ms).mp h⟩

/-- The built metric of a valid record is related to it by `preservedRecord`. -/
theorem preservedRecord_buildMetric (d : MetricDataInput) (h : validRecord d) :
    preservedRecord d (buildMetric d) := by
  obtain ⟨h1, _, _⟩ := h
  refine ⟨?_, rfl, ?_, ?_, rfl, rfl, rfl, rfl⟩
  · cases hm : d.MetricName with
    | none => rw [hm] at h1; simp [truthyStr] at h1
    | some s => simp [buildMetric, hm]
  · cases hu : d.Unit with
    | none => simp [buildMetric, hu]
    | some u =>
      by_cases h : u = "" <;> simp [buildMetric, hu, h]
  · cases ht : d.Timestamp with
    | none => simp [buildMetric, ht]
    | some t =>
      by_cases h : t = "" <;> simp [buildMetric, ht, h]

/-- Pointwise preservation over a whole batch of valid records. -/
theorem forall₂_preserved_map (xs : List MetricDataInput) (hv : ∀ d ∈ xs, validRecord d) :
    List.Forall₂ preservedRecord xs (xs.map buildMetric) := by
  induction xs with
  | nil => simp
  | cons d rest ih =>
    exact List.Forall₂.cons (preservedRecord_buildMetric d (hv d (List.mem_cons_self d rest)))
      (ih fun x hx => hv x (List.mem_cons_of_mem d hx))

/-- Every code point occupies at least one UTF-16 code unit. -/
theorem utf16Units_pos (c : Char) : 1 ≤ utf16Units c := by
  unfold utf16Units
  split <;> omega

/-- The JavaScript length of a character list is zero exactly on the empty list. -/
theorem sum_utf16_eq_zero_iff (l : List Char) : (l.map utf16Units).sum = 0 ↔ l = [] := by
  induction l with
  | nil => simp
  | cons c cs ih =>
    have hpos := utf16Units_pos c
    simp only [List.map_cons, List.sum_cons]
    constructor
    · intro h
      exact absurd h (by omega)
    · intro h
      cases h

/-- The code-point count never exceeds the UTF-16 code-unit count. -/
theorem length_le_sum_utf16 (l : List Char) : l.length ≤ (l.map utf16Units).sum := by
  induction l with
  | nil => simp
  | cons c cs ih =>
    have hpos := utf16Units_pos c
    simp only [List.map_cons, List.sum_cons, List.length_cons]
    omega

/-- Characters of the namespace character class lie in the Basic Multilingual Plane,
so they occupy one UTF-16 code unit. -/
theorem utf16Units_of_valid (c : Char) (h : isValidNamespaceChar c = true) :
    utf16Units c = 1 := by
  have hlt : c.toNat < 65536 := by
    unfold isValidNamespaceChar at h
    simp only [Bool.or_eq_true, Bool.and_eq_true, beq_iff_eq, decide_eq_true_eq] at h
    rcases h with ((((((⟨_, h2⟩ | ⟨_, h2⟩) | ⟨_, h2⟩) | rfl) | rfl) | rfl) | rfl)
    · have hz : c.toNat ≤ 122 := h2
      omega
    · have hz : c.toNat ≤ 90 := h2
      omega
    · have hz : c.toNat ≤ 57 := h2
      omega
    all_goals decide
  unfold utf16Units
  rw [if_pos hlt]

/-- On a string of namespace-class characters the JavaScript length is the
code-point count. -/
theorem sum_utf16_eq_length (l : List Char) (h : ∀ c ∈ l, isValidNamespaceChar c = true) :
    (l.map utf16Units).sum = l.length := by
  induction l with
  | nil => simp
  | cons c cs ih =>
    simp only [List.map_cons, List.sum_cons, List.length_cons]
    rw [utf16Units_of_valid c (h c (List.mem_cons_self c cs)),
      ih (fun x hx => h x (List.mem_cons_of_mem c hx))]
    omega

/-- If every element remaining after `dropWhile` still satisfies the predicate, then
nothing remained. -/
theorem dropWhile_all_eq_nil {p : Char → Bool} {l : List Char}
    (h : ∀ x ∈ l.dropWhile p, p x = true) : l.dropWhile p = [] := by
  cases hl : l.dropWhile p with
  | nil => rfl
  | cons a as =>
    have hhead := List.head?_dropWhile_not p l
    rw [hl] at hhead
    simp only [List.head?_cons] at hhead
    have ha : a ∈ l.dropWhile p := by
      rw [hl]
      exact List.mem_cons_self a as
    have := h a ha
    simp [this] at hhead

/-- The JavaScript trim of a string is empty exactly when every character of the
string is JavaScript whitespace. -/
theorem jsTrim_data_eq_nil_iff (s : String) :
    (jsTrim s).data = [] ↔ ∀ c ∈ s.data, isJsWhitespace c = true := by
  show (((s.data.dropWhile isJsWhitespace).reverse.dropWhile isJsWhitespace).reverse = []) ↔ _
  rw [List.reverse_eq_nil_iff]
  constructor
  · intro h
    rw [List.dropWhile_eq_nil_iff] at h
    have h2 : ∀ x ∈ s.data.dropWhile isJsWhitespace, isJsWhitespace x = true := by
      intro x hx
      exact h x (List.mem_reverse.mpr hx)
    have h3 : s.data.dropWhile isJsWhitespace = [] := dropWhile_all_eq_nil h2
    rw [List.dropWhile_eq_nil_iff] at h3
    exact h3
  · intro h
    have h3 : s.data.dropWhile isJsWhitespace = [] := List.dropWhile_eq_nil_iff.mpr h
    rw [h3]
    rfl

/-- Full characterization of `validateNamespace`: it succeeds exactly on a nonempty,
not whitespace-only string of at most 255 characters drawn from the namespace
character class. -/
theorem validateNamespace_ok_iff (ns : String) :
    validateNamespace ns = Except.ok () ↔
      (ns.data ≠ [] ∧ (∃ c ∈ ns.data, ¬ isJsWhitespace c = true) ∧ ns.data.length ≤ 255 ∧
        ∀ c ∈ ns.data, isValidNamespaceChar c = true) := by
  unfold validateNamespace
  by_cases h1 : (ns == "" || jsLength (jsTrim ns) == 0) = true
  · rw [if_pos h1]
    constructor
    · intro h
      cases h
    · rintro ⟨hne, ⟨c, hc, hcw⟩, _, _⟩
      exfalso
      simp only [Bool.or_eq_true, beq_iff_eq] at h1
      rcases h1 with h1 | h1
      · apply hne
        rw [h1]
      · have hdata : (jsTrim ns).data = [] := (sum_utf16_eq_zero_iff _).mp h1
        have h3 := (jsTrim_data_eq_nil_iff ns).mp hdata
        exact hcw (h3 c hc)
  · rw [if_neg h1]
    by_cases h2 : 255 < jsLength ns
    · rw [if_pos h2]
      constructor
      · intro h
        cases h
      · rintro ⟨_, _, hlen, hvalid⟩
        have hj : jsLength ns = ns.data.length := sum_utf16_eq_length _ hvalid
        omega
    · rw [if_neg h2]
      by_cases h3 : namespacePatternTest ns = true
      · rw [if_neg (by simp [h3])]
        constructor
        · intro _
          unfold namespacePatternTest at h3
          simp only [Bool.and_eq_true, Bool.not_eq_true', List.all_eq_true,
            decide_eq_true_eq] at h3
          obtain ⟨hne, hall⟩ := h3
          have hne2 : ns.data ≠ [] := by
            intro hcon
            rw [hcon] at hne
            cases hne
          refine ⟨hne2, ?_, ?_, hall⟩
          · simp only [Bool.or_eq_true, beq_iff_eq, not_or] at h1
            obtain ⟨_, htrim⟩ := h1
            by_contra hno
            push_neg at hno
            have hdata : (jsTrim ns).data = [] := (jsTrim_data_eq_nil_iff ns).mpr hno
            apply htrim
            show jsLength (jsTrim ns) = 0
            unfold jsLength
            rw [hdata]
            rfl
          · have hj : jsLength ns = ns.data.length := sum_utf16_eq_length _ hall
            omega
        · intro _
          rfl
      · rw [if_pos (by simpa using h3)]
        constructor
        · intro h
          cases h
        · rintro ⟨hne, _, _, hvalid⟩
          exfalso
          apply h3
          unfold namespacePatternTest
          simp only [Bool.and_eq_true, Bool.not_eq_true', List.all_eq_true, decide_eq_true_eq]
          constructor
          · cases hd : ns.data with
            | nil => exact absurd hd hne
            | cons a as => rfl
          · exact hvalid

/-- C1 counterexample: the record with MetricName `M`, Value 1 and a present
empty-string Unit is valid in the sense of the claim (nonempty name, at most 30
dimensions, a data field), the batch of size 1 parses successfully, but the output
record does not carry the same field content: the input Unit `some ""` is dropped,
because an empty string is falsy in JavaScript. -/
theorem record_content_not_always_identical :
    validRecord recUnitEmpty ∧
    parseMetricData (JsonParse.array [recUnitEmpty]) = Except.ok [buildMetric recUnitEmpty] ∧
    ¬ sameFieldContent recUnitEmpty (buildMetric recUnitEmpty) :=
  ⟨by decide, rfl, by decide⟩

/-- C1 (amended): for every batch of 1 to 1000 valid records, parseMetricData
succeeds with a sequence of the same length, in input order, each output record
preserving MetricName, Value, Values, Counts, Dimensions and StatisticValues
verbatim, and Unit and Timestamp exactly when nonempty (Timestamp converted to a
Date carrying the original string). -/
theorem parse_preserves_valid_batches (xs : List MetricDataInput)
    (h1 : 1 ≤ xs.length) (h2 : xs.length ≤ 1000) (hv : ∀ d ∈ xs, validRecord d) :
    ∃ ms, parseMetricData (JsonParse.array xs) = Except.ok ms ∧
      ms.length = xs.length ∧ List.Forall₂ preservedRecord xs ms := by
  refine ⟨xs.map buildMetric, ?_, by simp, forall₂_preserved_map xs hv⟩
  rw [parseMetricData_array_ok_iff]
  exact ⟨by omega, h2, hv, rfl⟩

/-- C1 witness: the amended theorem applied to the singleton batch of a simple
valid record. -/
theorem parse_preserves_valid_batches_witness :
    (1 ≤ [recSimpleX].length ∧ [recSimpleX].length ≤ 1000 ∧
      ∀ d ∈ [recSimpleX], validRecord d) ∧
    (∃ ms, parseMetricData (JsonParse.array [recSimpleX]) = Except.ok ms ∧
      ms.length = [recSimpleX].length ∧ List.Forall₂ preservedRecord [recSimpleX] ms) :=
  ⟨⟨by decide, by decide, by decide⟩,
    parse_preserves_valid_batches [recSimpleX] (by decide) (by decide) (by decide)⟩

set_option maxRecDepth 8000 in
/-- C2: validateNamespace succeeds exactly on a nonempty, not whitespace-only
namespace of at most 255 characters drawn from the class `[A-Za-z0-9_./\-]`; in
particular 255 valid characters succeed, 256 fail, `My/App_1.0` succeeds, and a
namespace with a space or a `#` fails. -/
theorem validateNamespace_characterization :
    (∀ ns : String, validateNamespace ns = Except.ok () ↔
      (ns.data ≠ [] ∧ (∃ c ∈ ns.data, ¬ isJsWhitespace c = true) ∧ ns.data.length ≤ 255 ∧
        ∀ c ∈ ns.data, isValidNamespaceChar c = true)) ∧
    validateNamespace (String.mk (List.replicate 255 'a')) = Except.ok () ∧
    (validateNamespace (String.mk (List.replicate 256 'a'))).isOk = false ∧
    validateNamespace "My/App_1.0" = Except.ok () ∧
    (validateNamespace "My App").isOk = false ∧
    (validateNamespace "My#App").isOk = false :=
  ⟨validateNamespace_ok_iff, by rfl, by rfl, by rfl, by rfl, by rfl⟩

/-- C2 witness: the characterization applied to a concrete valid namespace. -/
theorem validateNamespace_characterization_witness :
    validateNamespace "Prod/Service-2.0" = Except.ok () :=
  (validateNamespace_characterization.1 "Prod/Service-2.0").mpr (by decide)

/-- C3: an input record lacking Value, Values and StatisticValues makes
parseMetricData fail, and every record of a successful parse carries at least one
of the three data fields. -/
theorem missing_data_field_rejected :
    (∀ xs : List MetricDataInput,
      (∃ d ∈ xs, d.Value = none ∧ d.Values = none ∧ d.StatisticValues = none) →
      ∃ msg, parseMetricData (JsonParse.array xs) = Except.error msg) ∧
    (∀ (input : JsonParse) (ms : List MetricDatum), parseMetricData input = Except.ok ms →
      ∀ m ∈ ms, m.Value.isSome = true ∨ m.Values.isSome = true ∨
        m.StatisticValues.isSome = true) := by
  constructor
  · rintro xs ⟨d, hd, hv, hvs, hst⟩
    cases hok : parseMetricData (JsonParse.array xs) with
    | error msg => exact ⟨msg, rfl⟩
    | ok ms =>
      exfalso
      obtain ⟨_, _, hvalid, _⟩ := (parseMetricData_array_ok_iff xs ms).mp hok
      obtain ⟨_, _, hdata⟩ := hvalid d hd
      rcases hdata with h | h | h
      · rw [hv] at h
        simp at h
      · rw [hvs] at h
        simp at h
      · rw [hst] at h
        simp at h
  · intro input ms h m hm
    obtain ⟨xs, rfl, _, _, hvalid, rfl⟩ := parseMetricData_ok_elim input ms h
    rw [List.mem_map] at hm
    obtain ⟨d, hd, rfl⟩ := hm
    obtain ⟨_, _, hdata⟩ := hvalid d hd
    rcases hdata with h | h | h
    · exact Or.inl h
    · exact Or.inr (Or.inl h)
    · exact Or.inr (Or.inr h)

/-- C3 witness: both parts applied to concrete inputs: the record with only a
MetricName is rejected, and the parsed simple record carries a data field. -/
theorem missing_data_field_rejected_witness :
    (∃ msg, parseMetricData (JsonParse.array [recNoData]) = Except.error msg) ∧
    (∀ m ∈ [buildMetric recSimpleX], m.Value.isSome = true ∨ m.Values.isSome = true ∨
      m.StatisticValues.isSome = true) :=
  ⟨missing_data_field_rejected.1 [recNoData] ⟨recNoData, by simp, rfl, rfl, rfl⟩,
    missing_data_field_rejected.2 (JsonParse.array [recSimpleX]) [buildMetric recSimpleX] rfl⟩

/-- C4: when namespace validation and metric parsing both succeed, putMetrics sends
exactly one command carrying the namespace and all parsed records, and if the
backend accepts it, the result is success with metricsCount equal to the size of
the input array. -/
theorem putMetrics_sends_single_batch (send : PutMetricDataCommand → Except String Unit)
    (ns : String) (xs : List MetricDataInput) (ms : List MetricDatum)
    (h1 : validateNamespace ns = Except.ok ())
    (h2 : parseMetricData (JsonParse.array xs) = Except.ok ms) :
    (putMetrics send ns (JsonParse.array xs)).sent =
      [{ Namespace := ns, MetricData := ms }] ∧
    (send { Namespace := ns, MetricData := ms } = Except.ok () →
      (putMetrics send ns (JsonParse.array xs)).result =
        { success := true, metricsCount := some xs.length, error := none }) := by
  have hlen : ms.length = xs.length := by
    obtain ⟨_, _, _, rfl⟩ := (parseMetricData_array_ok_iff xs ms).mp h2
    simp
  simp only [putMetrics, h1, h2]
  cases hsend : send { Namespace := ns, MetricData := ms } with
  | error msg =>
    exact ⟨rfl, fun hc => by cases hc⟩
  | ok u =>
    cases u
    refine ⟨rfl, fun _ => ?_⟩
    show ({ success := true, metricsCount := some ms.length, error := none } : MetricResult) =
      { success := true, metricsCount := some xs.length, error := none }
    rw [hlen]

/-- C4 witness: the scenario of the claim: one metric `X` with value 1 published to
namespace `Test` through an accepting backend. -/
theorem putMetrics_sends_single_batch_witness :
    (putMetrics sendOk "Test" (JsonParse.array [recSimpleX])).sent =
      [{ Namespace := "Test", MetricData := [buildMetric recSimpleX] }] ∧
    (sendOk { Namespace := "Test", MetricData := [buildMetric recSimpleX] } = Except.ok () →
      (putMetrics sendOk "Test" (JsonParse.array [recSimpleX])).result =
        { success := true, metricsCount := some 1, error := none }) :=
  putMetrics_sends_single_batch sendOk "Test" [recSimpleX] [buildMetric recSimpleX] rfl rfl

/-- C5: when the backend call fails with a message, putMetrics returns success false
with the backend message propagated verbatim as the error (hence the returned error
contains the backend text), and logs it prefixed with `Failed to put metrics: ` for
context. -/
theorem putMetrics_propagates_backend_error (send : PutMetricDataCommand → Except String Unit)
    (ns : String) (input : JsonParse) (ms : List MetricDatum) (msg : String)
    (h1 : validateNamespace ns = Except.ok ())
    (h2 : parseMetricData input = Except.ok ms)
    (h3 : send { Namespace := ns, MetricData := ms } = Except.error msg) :
    (putMetrics send ns input).result =
      { success := false, metricsCount := none, error := some msg } ∧
    LogLine.error ("Failed to put metrics: " ++ msg) ∈ (putMetrics send ns input).logs := by
  simp [putMetrics, h1, h2, h3]

/-- C5 witness: the theorem applied to a backend raising an authorization error. -/
theorem putMetrics_propagates_backend_error_witness :
    (putMetrics sendAuthError "Test" (JsonParse.array [recSimpleX])).result =
      { success := false, metricsCount := none, error := some authErrorMsg } ∧
    LogLine.error ("Failed to put metrics: " ++ authErrorMsg) ∈
      (putMetrics sendAuthError "Test" (JsonParse.array [recSimpleX])).logs :=
  putMetrics_propagates_backend_error sendAuthError "Test" (JsonParse.array [recSimpleX])
    [buildMetric recSimpleX] authErrorMsg rfl rfl rfl

/-- C6: when namespace validation or metric parsing fails, putMetrics returns a
failure result, sends nothing to the backend, and its whole outcome does not depend
on the backend at all. -/
theorem invalid_input_fails_without_send (send : PutMetricDataCommand → Except String Unit)
    (ns : String) (input : JsonParse)
    (h : validateNamespace ns ≠ Except.ok () ∨ (parseMetricData input).isOk = false) :
    (putMetrics send ns input).result.success = false ∧
    (putMetrics send ns input).sent = [] ∧
    (∀ sendB, putMetrics sendB ns input = putMetrics send ns input) := by
  cases hv : validateNamespace ns with
  | error msg =>
    refine ⟨?_, ?_, ?_⟩ <;> simp [putMetrics, hv]
  | ok u =>
    cases u
    rcases h with h | h
    · exact absurd hv h
    · cases hp : parseMetricData input with
      | error msg =>
        refine ⟨?_, ?_, ?_⟩ <;> simp [putMetrics, hv, hp]
      | ok ms =>
        rw [hp] at h
        simp [Except.isOk, Except.toBool] at h

/-- C6 witness: the empty-array scenario: no send happens and the call fails. -/
theorem invalid_input_fails_without_send_witness :
    (putMetrics sendOk "Test" (JsonParse.array [])).result.success = false ∧
    (putMetrics sendOk "Test" (JsonParse.array [])).sent = [] ∧
    (∀ sendB, putMetrics sendB "Test" (JsonParse.array []) =
      putMetrics sendOk "Test" (JsonParse.array [])) :=
  invalid_input_fails_without_send sendOk "Test" (JsonParse.array []) (Or.inr rfl)

/-- C7 counterexample: the record whose only optional field is a 30-entry
Dimensions array does not make parseMetricData succeed: it fails the
at-least-one-data-field check. -/
theorem dims30_only_record_fails :
    parseMetricData (JsonParse.array [rec30dims]) =
      Except.error "Metric \"M\" must have at least one of: Value, Values, or StatisticValues" :=
  rfl

/-- C7 (amended): a 31-entry Dimensions array is rejected with the too-many-dimensions
error; a 30-entry one passes the dimension check, but a record whose only optional
field is Dimensions still fails for lacking a data field; with a Value added, 30
dimensions succeed and 31 fail. -/
theorem dims_limit_checks :
    parseMetricData (JsonParse.array [rec31dims]) =
      Except.error "Metric \"M\" has too many dimensions (max 30, got 31)" ∧
    (parseMetricData (JsonParse.array [rec30dims])).isOk = false ∧
    parseMetricData (JsonParse.array [rec30dimsValue]) =
      Except.ok [buildMetric rec30dimsValue] ∧
    parseMetricData (JsonParse.array [rec31dimsValue]) =
      Except.error "Metric \"M\" has too many dimensions (max 30, got 31)" :=
  ⟨rfl, rfl, rfl, rfl⟩

/-- C8 counterexample: with Counts present and Values absent, the Counts array is
not dropped: it is copied to the output record. -/
theorem counts_not_dropped :
    recCountsNoValues.Counts = some [2] ∧ recCountsNoValues.Values = none ∧
    parseMetricData (JsonParse.array [recCountsNoValues]) =
      Except.ok [buildMetric recCountsNoValues] ∧
    (buildMetric recCountsNoValues).Counts = some [2] :=
  ⟨rfl, rfl, rfl, rfl⟩

/-- C8 (amended): Counts, when present, is always copied through to the output
record, independently of Values, and no validation relates the two arrays: a batch
with Values of length 2 and Counts of length 3 parses successfully. -/
theorem counts_copied_through :
    (∀ (i : Nat) (d : MetricDataInput) (m : MetricDatum),
      parseRecord i d = Except.ok m → m.Counts = d.Counts) ∧
    parseMetricData (JsonParse.array [recValuesCountsMismatch]) =
      Except.ok [buildMetric recValuesCountsMismatch] := by
  constructor
  · intro i d m h
    obtain ⟨_, rfl⟩ := parseRecord_ok_elim i d m h
    rfl
  · rfl

/-- C8 witness: the general copy property applied to the concrete record with Counts
and no Values. -/
theorem counts_copied_through_witness :
    (buildMetric recCountsNoValues).Counts = recCountsNoValues.Counts :=
  counts_copied_through.1 0 recCountsNoValues (buildMetric recCountsNoValues) rfl

/-- C9: putMetrics always returns a result (the embedding is a total function), and
that result is either success with a count and no error, or failure with an error
message; every validation, parse or backend error ends in the failure shape. -/
theorem putMetrics_always_returns_result (send : PutMetricDataCommand → Except String Unit)
    (ns : String) (input : JsonParse) :
    ((putMetrics send ns input).result.success = true ∧
      (putMetrics send ns input).result.error = none ∧
      ∃ n, (putMetrics send ns input).result.metricsCount = some n) ∨
    ((putMetrics send ns input).result.success = false ∧
      ∃ e, (putMetrics send ns input).result.error = some e) := by
  cases hv : validateNamespace ns with
  | error msg =>
    right
    refine ⟨?_, msg, ?_⟩ <;> simp [putMetrics, hv]
  | ok u =>
    cases u
    cases hp : parseMetricData input with
    | error msg =>
      right
      refine ⟨?_, msg, ?_⟩ <;> simp [putMetrics, hv, hp]
    | ok ms =>
      cases hs : send { Namespace := ns, MetricData := ms } with
      | error msg =>
        right
        refine ⟨?_, msg, ?_⟩ <;> simp [putMetrics, hv, hp, hs]
      | ok u2 =>
        cases u2
        left
        refine ⟨?_, ?_, ms.length, ?_⟩ <;> simp [putMetrics, hv, hp, hs]

/-- C10: the at-least-one-data-field check accepts degenerate data fields: an empty
Values array is treated as present (arrays are truthy in JavaScript), and a Value of
0 is treated as present (only undefined counts as absent). -/
theorem degenerate_data_fields_accepted :
    parseMetricData (JsonParse.array [recEmptyValues]) = Except.ok [buildMetric recEmptyValues] ∧
    (buildMetric recEmptyValues).Values = some [] ∧
    parseMetricData (JsonParse.array [recZeroValue]) = Except.ok [buildMetric recZeroValue] ∧
    (buildMetric recZeroValue).Value = some 0 :=
  ⟨rfl, rfl, rfl, rfl⟩

end AwsCloudwatchPutMetrics
